import Mathlib

/-!
Verification of the HTTP connector (`src/lib/connectors/http.js`).

The file embeds, as executable Lean definitions, the parts of the connector
the claims talk about:

* the protocol lookup and the `TypeError` thrown by the constructor
  (lines 30-39);
* agent creation, the `forever` / `keepAlive` interaction and the
  registration of the `status set` drain listener (lines 49, 76-89);
* the drain performed by `onStatusSet` when the status becomes `closed`
  (lines 53-74), over a model of Node's agent bookkeeping
  (`sockets`, `freeSockets`, `requests`, `minSockets`, `maxSockets`);
* the per-request execution path of `request` (lines 132-202) as a state
  machine driven by the events the Node runtime can deliver (a response
  head, data chunks, stream end, stream error, request error, and the
  caller invoking the returned cancellation function), with the
  `_.once`-wrapped callback, the `cleanUp` routine and the trace logging
  embedded faithfully;
* the content-encoding dispatch of the response body (lines 168-171) and
  the `Content-Length` computation (lines 189-194).
-/

namespace HttpConnector

/-- JavaScript values as observed at the connector's boundaries: the
arguments of the completion callback and of the logging sink.  `jsErr`
models an `Error` instance, `reqObj` the request object. -/
inductive JsVal where
  | undef
  | jsNull
  | jsErr (msg : String)
  | str (s : String)
  | num (n : Nat)
  | hdrs (h : List (String × String))
  | reqObj (aborted : Bool)
deriving DecidableEq, Repr

/-- The test `err instanceof Error` performed at http.js line 151. -/
def JsVal.isError : JsVal → Bool
  | .jsErr _ => true
  | _ => false

/-- ASCII lowering, modelling `String.prototype.toLowerCase` as applied to
header values (which are ASCII). -/
def jsLower (s : String) : String := String.mk (s.data.map Char.toLower)

/-- The expression `(headers['content-encoding'] || '').toLowerCase()` of
http.js line 168.  Node lower-cases incoming header names, so the lookup
key is the literal `content-encoding`. -/
def contentEncodingOf (headers : List (String × String)) : String :=
  jsLower ((List.lookup "content-encoding" headers).getD "")

/-- Response-body processing of http.js lines 168-176: when the
content-encoding is `gzip` or `deflate` the incoming stream is piped
through `zlib.createUnzip()` before UTF-8 accumulation; otherwise the raw
bytes are accumulated directly.  `unzip` and `utf8` stand for the runtime
decompressor and decoder, which live outside this repository. -/
def deliveredBody (unzip : List Nat → List Nat) (utf8 : List Nat → String)
    (headers : List (String × String)) (raw : List Nat) : String :=
  if contentEncodingOf headers = "gzip" ∨ contentEncodingOf headers = "deflate" then
    utf8 (unzip raw)
  else
    utf8 raw

/-- JavaScript truthiness of `params.body` at http.js line 189: absent or
empty-string bodies are falsy. -/
def bodyTruthy : Option String → Bool
  | none => false
  | some b => !(b == "")

/-- The `Content-Length` header value set at http.js lines 189-194:
`Buffer.byteLength(params.body, 'utf8')` when the body is truthy, `0`
otherwise. -/
def contentLengthValue (body : Option String) : Nat :=
  if bodyTruthy body then (body.getD "").utf8ByteSize else 0

/-- A truthy value produced by the lookup `handles[this.host.protocol]`
(http.js line 33): one of the two own properties of the `handles` object
literal (lines 11-14), or — because a JS object literal inherits from
`Object.prototype` — one of the inherited `Object.prototype` members,
every one of which is a truthy function or object. -/
inductive HandleKind where
  | http
  | https
  | inherited (name : String)
deriving DecidableEq, Repr

/-- The property names `handles` inherits from `Object.prototype`; looking
any of them up yields a truthy value, so `if (!this.hand)` does not
fire. -/
def objectPrototypeProps : List String :=
  ["constructor", "hasOwnProperty", "isPrototypeOf", "propertyIsEnumerable",
   "toLocaleString", "toString", "valueOf", "__proto__",
   "__defineGetter__", "__defineSetter__", "__lookupGetter__", "__lookupSetter__"]

/-- The lookup `handles[this.host.protocol]` (http.js line 33): an own
property for `http` / `https`, an inherited `Object.prototype` member for
its property names, and `undefined` (modelled `none`) otherwise. -/
def handleFor (protocol : String) : Option HandleKind :=
  if protocol = "http" then some HandleKind.http
  else if protocol = "https" then some HandleKind.https
  else if protocol ∈ objectPrototypeProps then some (HandleKind.inherited protocol)
  else none

/-- The error thrown by the constructor on an unsupported protocol
(http.js line 35, a `TypeError`; the specification calls this error
`UnsupportedProtocolError`). -/
inductive ConstructError where
  | invalidProtocol (msg : String)
deriving DecidableEq, Repr

/-- The protocol-dependent state established by the constructor
(http.js lines 33-39). -/
structure ConnectorInit where
  hand : HandleKind
  useSsl : Bool
deriving DecidableEq, Repr

/-- The protocol-validation part of `HttpConnector` construction
(http.js lines 30-39): look the protocol up in `handles`, throw a
`TypeError` when absent, otherwise record the handle and whether TLS is
in use. -/
def connectorCtor (protocol : String) : Except ConstructError ConnectorInit :=
  match handleFor protocol with
  | none => Except.error (ConstructError.invalidProtocol
      ("Invalid protocol \"" ++ protocol ++ "\", expected one of http, https"))
  | some h => Except.ok { hand := h, useSsl := protocol == "https" }

/-- Node agent bookkeeping as manipulated by `onStatusSet`
(http.js lines 53-74).  `none` in `minSockets` / `maxSockets` models the
JS value `Infinity`; socket objects are modelled by numeric identities,
and a `none` entry in a socket list models a `null` array slot (the code
guards with `if (s)`).  `requests` is the queued-request table. -/
structure Agent where
  minSockets : Option Nat
  maxSockets : Option Nat
  requests : List (String × List Nat)
  sockets : List (String × List (Option Nat))
  freeSockets : List (String × List (Option Nat))
deriving DecidableEq, Repr

/-- The inner `_.each(sockets, function (s) { if (s) toRemove.push([host, s]) })`
of `collectSockets` (http.js lines 57-61), for one host key. -/
def entryPairs (k : String) : List (Option Nat) → List (String × Nat)
  | [] => []
  | none :: t => entryPairs k t
  | some v :: t => (k, v) :: entryPairs k t

/-- The outer `_.each(agent.sockets, collectSockets)` (http.js lines 66-67):
every non-null socket of every host key, with its host key, in table
order. -/
def collectSockets : List (String × List (Option Nat)) → List (String × Nat)
  | [] => []
  | kv :: t => entryPairs kv.1 kv.2 ++ collectSockets t

/-- Splice of the first occurrence of socket `n` from one socket array,
as `Agent.prototype.removeSocket` does via `indexOf` and `splice`. -/
def removeFirst : List (Option Nat) → Nat → List (Option Nat)
  | [], _ => []
  | x :: xs, n => if x = some n then xs else x :: removeFirst xs n

/-- Removal of socket `n` from the lists stored under host key `k`. -/
def removeFromTable (tbl : List (String × List (Option Nat))) (k : String)
    (n : Nat) : List (String × List (Option Nat)) :=
  tbl.map (fun kv => if kv.1 = k then (kv.1, removeFirst kv.2 n) else kv)

/-- `agent.removeSocket(socket, parseUrl(host))` (http.js line 70): Node's
agent drops the socket from both `sockets[name]` and `freeSockets[name]`. -/
def removeSocket (a : Agent) (k : String) (n : Nat) : Agent :=
  { a with
    sockets := removeFromTable a.sockets k n
    freeSockets := removeFromTable a.freeSockets k n }

/-- `HttpConnector.prototype.onStatusSet` (http.js lines 53-74).  On the
`closed` status: zero both concurrency limits, clear the queued-request
table, collect every non-null socket of `sockets` and `freeSockets`, and
for each collected pair remove it from the bookkeeping and destroy it.
The second component is the list of destroyed sockets, in destruction
order. -/
def onStatusSet (status : String) (a : Agent) : Agent × List (String × Nat) :=
  if status = "closed" then
    let toRemove := collectSockets a.sockets ++ collectSockets a.freeSockets
    let a1 : Agent := { a with minSockets := some 0, maxSockets := some 0, requests := [] }
    (toRemove.foldl (fun ag hs => removeSocket ag hs.1 hs.2) a1, toRemove)
  else
    (a, [])

/-- The agent class finally instantiated by the connector: Node's plain
`http.Agent` / `https.Agent`, the `agentkeepalive` pooling classes, or a
caller-supplied `createNodeAgent` product. -/
inductive AgentClass where
  | nodeHttpAgent
  | nodeHttpsAgent
  | keepAliveAgent
  | keepAliveHttpsAgent
  | custom
deriving DecidableEq, Repr

/-- What agent creation decides: which class is instantiated and whether
the `status set` drain listener was registered. -/
structure AgentSetup where
  cls : AgentClass
  drainListener : Bool
deriving DecidableEq, Repr

/-- `HttpConnector.prototype.createAgent` (http.js lines 76-89): a truthy
`forever` overwrites `keepAlive`; a truthy `keepAlive` selects the
`agentkeepalive` class (TLS variant under `https`) and registers
`this.bound.onStatusSet` on the `status set` event. -/
def createAgent (useSsl keepAlive forever : Bool) : AgentSetup :=
  let ka := if forever then forever else keepAlive
  if ka then
    { cls := if useSsl then AgentClass.keepAliveHttpsAgent else AgentClass.keepAliveAgent
      drainListener := true }
  else
    { cls := if useSsl then AgentClass.nodeHttpsAgent else AgentClass.nodeHttpAgent
      drainListener := false }

/-- http.js line 49: a supplied `createNodeAgent` override takes the place
of `createAgent`, in which case the drain listener is never registered. -/
def connectorAgentSetup (hasCreateNodeAgent useSsl keepAlive forever : Bool) :
    AgentSetup :=
  if hasCreateNodeAgent then { cls := AgentClass.custom, drainListener := false }
  else createAgent useSsl keepAlive forever

/-- Delivery of a status notification to the transport: `onStatusSet` runs
only when the drain listener was registered at construction. -/
def deliverStatusSet (setup : AgentSetup) (status : String) (a : Agent) :
    Agent × List (String × Nat) :=
  if setup.drainListener then onStatusSet status a else (a, [])

/-- Output of `makeReqParams` (http.js lines 107-130), carried opaquely:
its construction delegates to the host object, which is outside this
core. -/
structure ReqParams where
  method : String
  path : String
  headers : List (String × String)
deriving DecidableEq, Repr

/-- The caller-supplied request parameters of
`HttpConnector.prototype.request`, together with the wire parameters
computed once at http.js line 137. -/
structure Params where
  method : String
  reqParams : ReqParams
  body : Option String
deriving DecidableEq, Repr

/-- One invocation of the logging sink
`this.log.trace(params.method, reqParams, params.body, response, status)`
(http.js lines 139-141). -/
structure LogCall where
  method : String
  reqParams : ReqParams
  body : Option String
  rawResponse : JsVal
  status : Nat
deriving DecidableEq, Repr

/-- The request object, as far as the connector observes it. -/
structure ReqHandle where
  aborted : Bool
deriving DecidableEq, Repr

/-- State of one execution of `request` (http.js lines 132-202).
`cbUsed` is the `_.once` latch of line 133; `cbCalls` records every
argument list actually delivered to the caller's callback; `request` is
the local `request` variable (nulled by `cleanUp`); `reqErrOn`,
`incomingErrOn` and `incomingEndOn` track whether the corresponding
`once` listeners are still attached; `status`, `headers` and `response`
are the variables of lines 135, 136 and 164. -/
structure ReqState where
  prm : Params
  cbUsed : Bool
  cbCalls : List (List JsVal)
  request : Option ReqHandle
  reqErrOn : Bool
  responded : Bool
  incomingErrOn : Bool
  incomingEndOn : Bool
  status : Nat
  headers : List (String × String)
  response : String
  logCalls : List LogCall
deriving DecidableEq, Repr

/-- State right after `this.hand.request(...)` returns (http.js
lines 132-195): callback unused, request object live, its error listener
attached, no response seen yet. -/
def startState (p : Params) : ReqState :=
  { prm := p
    cbUsed := false
    cbCalls := []
    request := some { aborted := false }
    reqErrOn := true
    responded := false
    incomingErrOn := false
    incomingEndOn := false
    status := 0
    headers := []
    response := ""
    logCalls := [] }

/-- The JS value of the `request` variable as passed to the logger. -/
def jsOfRequest : Option ReqHandle → JsVal
  | none => JsVal.jsNull
  | some r => JsVal.reqObj r.aborted

/-- The `_.once`-wrapped callback of http.js line 133: the underlying
callback runs on the first invocation only. -/
def callCb (s : ReqState) (args : List JsVal) : ReqState :=
  if s.cbUsed then s
  else { s with cbUsed := true, cbCalls := s.cbCalls ++ [args] }

/-- The first block of `cleanUp` (http.js lines 146-149): detach the
request error listener and null the `request` variable. -/
def nullRequest (s : ReqState) : ReqState :=
  if s.request.isSome then { s with request := none, reqErrOn := false } else s

/-- `logRequest(request)` as called at http.js line 155: the logger
receives the current (just nulled) `request` variable in the `response`
position. -/
def logAfterNull (s : ReqState) : ReqState :=
  { s with
    logCalls := s.logCalls ++
      [{ method := s.prm.method
         reqParams := s.prm.reqParams
         body := s.prm.body
         rawResponse := jsOfRequest s.request
         status := s.status }] }

/-- The coercion of http.js lines 151-153:
`if ((err instanceof Error) === false) err = void 0`. -/
def errCoerce (err : JsVal) : JsVal :=
  if err.isError then err else JsVal.undef

/-- `response || void 0` of http.js line 159: an absent or empty response
string becomes `undefined`. -/
def bodyOrUndef : Option String → JsVal
  | none => JsVal.undef
  | some s => if s = "" then JsVal.undef else JsVal.str s

/-- The argument list delivered by http.js lines 156-160: `cb(err)` on an
error, `cb(err, response || void 0, status, headers)` otherwise. -/
def cbArgsFor (err : JsVal) (resp : Option String) (s : ReqState) : List JsVal :=
  if err.isError then [err]
  else [JsVal.undef, bodyOrUndef resp, JsVal.num s.status, JsVal.hdrs s.headers]

/-- `cleanUp(err, response)` (http.js lines 145-161): null the request
variable and detach its error listener, coerce non-`Error` values of
`err` to `undefined`, log, then invoke the once-wrapped callback with the
error or with the success quadruple. -/
def cleanUp (err : JsVal) (resp : Option String) (s : ReqState) : ReqState :=
  callCb (logAfterNull (nullRequest s))
    (cbArgsFor (errCoerce err) resp (logAfterNull (nullRequest s)))

/-- The cancellation closure returned by `request` (http.js
lines 197-201): abort the request object if the `request` variable is
still live, otherwise do nothing. -/
def cancel (s : ReqState) : ReqState :=
  match s.request with
  | some r => { s with request := some { r with aborted := true } }
  | none => s

/-- The events the Node runtime (or the caller, for `abort`) can deliver
to one executing request.  `responseStart` is the `response` event of
`this.hand.request` (http.js line 163); `dataChunk` a decoded chunk on
the (possibly unzip-piped) incoming stream; `streamEnd` / `streamError`
the `end` / `error` events of that stream; `reqError` the `error` event
of the request object; `abort` an invocation of the returned
cancellation function. -/
inductive Ev where
  | responseStart (status : Nat) (headers : List (String × String))
  | dataChunk (chunk : String)
  | streamEnd
  | streamError (e : JsVal)
  | reqError (e : JsVal)
  | abort
deriving DecidableEq, Repr

/-- One event step of the request state machine, following http.js
lines 163-201.  A `once` listener reacts only while attached and
detaches when it fires; the response handler records status and headers
and attaches the stream listeners; the data listener appends to
`response`. -/
def step (s : ReqState) : Ev → ReqState
  | .responseStart st hd =>
    if s.responded then s
    else { s with responded := true, status := st, headers := hd,
                  incomingErrOn := true, incomingEndOn := true }
  | .dataChunk c =>
    if s.responded then { s with response := s.response ++ c } else s
  | .streamEnd =>
    if s.incomingEndOn then
      cleanUp JsVal.undef (some s.response) { s with incomingEndOn := false }
    else s
  | .streamError e =>
    if s.incomingErrOn then cleanUp e none { s with incomingErrOn := false } else s
  | .reqError e =>
    if s.reqErrOn then cleanUp e none { s with reqErrOn := false } else s
  | .abort => cancel s

/-- A whole execution of `HttpConnector.prototype.request` on a given
event trace. -/
def runRequest (p : Params) (evs : List Ev) : ReqState :=
  evs.foldl step (startState p)

/-- Concrete request parameters used by witnesses. -/
def pEx : Params :=
  { method := "GET"
    reqParams := { method := "GET", path := "/", headers := [] }
    body := none }

/-- Concrete request parameters with a body, used for the logging claim. -/
def pLog : Params :=
  { method := "POST"
    reqParams := { method := "POST", path := "/_search", headers := [("accept", "application/json")] }
    body := some "q" }

/-- A concrete agent holding two in-use and three idle sockets under one
host key, as in the specification's drain scenario. -/
def agentEx : Agent :=
  { minSockets := some 0
    maxSockets := some 5
    requests := [("http://a:9200", [7])]
    sockets := [("http://a:9200", [some 1, some 2])]
    freeSockets := [("http://a:9200", [some 3, some 4, some 5])] }

/-- Shapes a callback invocation can take under `cleanUp`: the
single-argument error call of http.js line 157, or the success quadruple
of line 159. -/
def GoodCbShape (args : List JsVal) : Prop :=
  (∃ e, e.isError = true ∧ args = [e]) ∨
  (∃ b st hd, args = [JsVal.undef, b, JsVal.num st, JsVal.hdrs hd])

/-- Execution invariant of the request state machine: the once-wrapped
callback has run as many times as its latch says (zero or one); a
detached request error listener, or a consumed stream end listener after
a response, means the callback has already run; a used callback means
the `request` variable is nulled; and every delivered argument list has
one of the two `cleanUp` shapes. -/
def Inv (s : ReqState) : Prop :=
  s.cbCalls.length = (if s.cbUsed = true then 1 else 0) ∧
  (s.reqErrOn = false → s.cbUsed = true) ∧
  (s.responded = true → s.incomingEndOn = false → s.cbUsed = true) ∧
  (s.cbUsed = true → s.request = none) ∧
  (∀ args ∈ s.cbCalls, GoodCbShape args)

/-- Occurrence count of one host-socket pair in a collected socket
list.  Distinct JS socket objects are modelled by distinct pairs, so
"enumerated exactly once" is an occurrence-count statement. -/
def occ (q : String × Nat) : List (String × Nat) → Nat
  | [] => 0
  | x :: t => (if x = q then 1 else 0) + occ q t

/-- Occurrence count of socket `n` in one socket array. -/
def occSome (n : Nat) : List (Option Nat) → Nat
  | [] => 0
  | x :: t => (if x = some n then 1 else 0) + occSome n t

theorem callCb_cbUsed (s : ReqState) (args : List JsVal) :
    (callCb s args).cbUsed = true := by
  unfold callCb; split
  next h => exact h
  next => rfl

theorem callCb_request (s : ReqState) (args : List JsVal) :
    (callCb s args).request = s.request := by
  unfold callCb; split <;> rfl

theorem callCb_mem (s : ReqState) (args a : List JsVal)
    (ha : a ∈ (callCb s args).cbCalls) : a ∈ s.cbCalls ∨ a = args := by
  unfold callCb at ha; split at ha
  · exact Or.inl ha
  · simp only [List.mem_append, List.mem_singleton] at ha
    exact ha

theorem callCb_length (s : ReqState) (args : List JsVal)
    (h : s.cbCalls.length = (if s.cbUsed = true then 1 else 0)) :
    (callCb s args).cbCalls.length = 1 := by
  unfold callCb; split
  next hc => rw [h, if_pos hc]
  next hc =>
    simp only [List.length_append, List.length_singleton, h]
    rw [if_neg hc]

theorem nullRequest_request (s : ReqState) : (nullRequest s).request = none := by
  unfold nullRequest; split
  next => rfl
  next h => exact Option.not_isSome_iff_eq_none.mp h

theorem nullRequest_cbUsed (s : ReqState) : (nullRequest s).cbUsed = s.cbUsed := by
  unfold nullRequest; split <;> rfl

theorem nullRequest_cbCalls (s : ReqState) : (nullRequest s).cbCalls = s.cbCalls := by
  unfold nullRequest; split <;> rfl

theorem nullRequest_status (s : ReqState) : (nullRequest s).status = s.status := by
  unfold nullRequest; split <;> rfl

theorem nullRequest_headers (s : ReqState) : (nullRequest s).headers = s.headers := by
  unfold nullRequest; split <;> rfl

theorem nullRequest_responded (s : ReqState) : (nullRequest s).responded = s.responded := by
  unfold nullRequest; split <;> rfl

theorem cbArgsFor_shape (err : JsVal) (resp : Option String) (s : ReqState) :
    GoodCbShape (cbArgsFor err resp s) := by
  unfold cbArgsFor; split
  next h => exact Or.inl ⟨err, h, rfl⟩
  next => exact Or.inr ⟨bodyOrUndef resp, s.status, s.headers, rfl⟩

theorem cleanUp_cbUsed (e : JsVal) (r : Option String) (s : ReqState) :
    (cleanUp e r s).cbUsed = true :=
  callCb_cbUsed _ _

theorem cleanUp_request (e : JsVal) (r : Option String) (s : ReqState) :
    (cleanUp e r s).request = none := by
  unfold cleanUp
  rw [callCb_request]
  show (nullRequest s).request = none
  exact nullRequest_request s

theorem inv_cleanUp (e : JsVal) (r : Option String) (s : ReqState)
    (h1 : s.cbCalls.length = (if s.cbUsed = true then 1 else 0))
    (h5 : ∀ args ∈ s.cbCalls, GoodCbShape args) :
    Inv (cleanUp e r s) := by
  have hlog1 : (logAfterNull (nullRequest s)).cbCalls = s.cbCalls := by
    show (nullRequest s).cbCalls = s.cbCalls
    exact nullRequest_cbCalls s
  have hlog2 : (logAfterNull (nullRequest s)).cbUsed = s.cbUsed := by
    show (nullRequest s).cbUsed = s.cbUsed
    exact nullRequest_cbUsed s
  refine ⟨?_, ?_, ?_, ?_, ?_⟩
  · rw [cleanUp_cbUsed, if_pos rfl]
    exact callCb_length _ _ (by rw [hlog1, hlog2]; exact h1)
  · intro _; exact cleanUp_cbUsed e r s
  · intro _ _; exact cleanUp_cbUsed e r s
  · intro _; exact cleanUp_request e r s
  · intro args hargs
    rcases callCb_mem _ _ _ hargs with hold | hnew
    · exact h5 args (by rwa [hlog1] at hold)
    · rw [hnew]; exact cbArgsFor_shape _ _ _

theorem inv_start (p : Params) : Inv (startState p) := by
  refine ⟨rfl, ?_, ?_, ?_, ?_⟩
  · intro h; exact absurd h (by simp [startState])
  · intro h; exact absurd h (by simp [startState])
  · intro h; exact absurd h (by simp [startState])
  · intro args h; exact absurd h (by simp [startState])

theorem inv_step (s : ReqState) (e : Ev) (h : Inv s) : Inv (step s e) := by
  obtain ⟨h1, h2, h3, h4, h5⟩ := h
  cases e with
  | responseStart st hd =>
    show Inv (if s.responded then _ else _)
    split
    · exact ⟨h1, h2, h3, h4, h5⟩
    · refine ⟨h1, h2, ?_, h4, h5⟩
      intro _ hend
      exact absurd hend (by simp)
  | dataChunk c =>
    show Inv (if s.responded then _ else _)
    split
    · exact ⟨h1, h2, h3, h4, h5⟩
    · exact ⟨h1, h2, h3, h4, h5⟩
  | streamEnd =>
    show Inv (if s.incomingEndOn then _ else _)
    split
    · exact inv_cleanUp _ _ _ h1 h5
    · exact ⟨h1, h2, h3, h4, h5⟩
  | streamError e =>
    show Inv (if s.incomingErrOn then _ else _)
    split
    · exact inv_cleanUp _ _ _ h1 h5
    · exact ⟨h1, h2, h3, h4, h5⟩
  | reqError e =>
    show Inv (if s.reqErrOn then _ else _)
    split
    · exact inv_cleanUp _ _ _ h1 h5
    · exact ⟨h1, h2, h3, h4, h5⟩
  | abort =>
    show Inv (cancel s)
    unfold cancel
    cases hreq : s.request with
    | none => exact ⟨h1, h2, h3, h4, h5⟩
    | some r =>
      refine ⟨h1, h2, h3, ?_, h5⟩
      intro hcb
      exact absurd (h4 hcb) (by rw [hreq]; exact Option.some_ne_none r)

theorem inv_foldl (s : ReqState) (evs : List Ev) (h : Inv s) :
    Inv (evs.foldl step s) := by
  induction evs generalizing s with
  | nil => exact h
  | cons e t ih => exact ih (step s e) (inv_step s e h)

theorem inv_run (p : Params) (evs : List Ev) : Inv (runRequest p evs) :=
  inv_foldl _ _ (inv_start p)

theorem step_cbUsed_mono (s : ReqState) (e : Ev) (h : s.cbUsed = true) :
    (step s e).cbUsed = true := by
  cases e with
  | responseStart st hd =>
    show (if s.responded then _ else _ : ReqState).cbUsed = true
    split
    · exact h
    · exact h
  | dataChunk c =>
    show (if s.responded then _ else _ : ReqState).cbUsed = true
    split
    · exact h
    · exact h
  | streamEnd =>
    show (if s.incomingEndOn then _ else _ : ReqState).cbUsed = true
    split
    · exact cleanUp_cbUsed _ _ _
    · exact h
  | streamError e =>
    show (if s.incomingErrOn then _ else _ : ReqState).cbUsed = true
    split
    · exact cleanUp_cbUsed _ _ _
    · exact h
  | reqError e =>
    show (if s.reqErrOn then _ else _ : ReqState).cbUsed = true
    split
    · exact cleanUp_cbUsed _ _ _
    · exact h
  | abort =>
    show (cancel s).cbUsed = true
    unfold cancel
    cases s.request with
    | none => exact h
    | some r => exact h

theorem foldl_cbUsed_mono (s : ReqState) (evs : List Ev) (h : s.cbUsed = true) :
    (evs.foldl step s).cbUsed = true := by
  induction evs generalizing s with
  | nil => exact h
  | cons e t ih => exact ih (step s e) (step_cbUsed_mono s e h)

theorem step_responded_mono (s : ReqState) (e : Ev) (h : s.responded = true) :
    (step s e).responded = true := by
  cases e with
  | responseStart st hd =>
    show (if s.responded then _ else _ : ReqState).responded = true
    split
    · exact h
    · exact h
  | dataChunk c =>
    show (if s.responded then _ else _ : ReqState).responded = true
    split
    · exact h
    · exact h
  | streamEnd =>
    show (if s.incomingEndOn then _ else _ : ReqState).responded = true
    split
    · unfold cleanUp; rw [show ∀ t : ReqState, (callCb t _).responded = t.responded from ?_]
      · show (nullRequest _).responded = true
        rw [nullRequest_responded]; exact h
      · intro t; unfold callCb; split <;> rfl
    · exact h
  | streamError e =>
    show (if s.incomingErrOn then _ else _ : ReqState).responded = true
    split
    · unfold cleanUp; rw [show ∀ t : ReqState, (callCb t _).responded = t.responded from ?_]
      · show (nullRequest _).responded = true
        rw [nullRequest_responded]; exact h
      · intro t; unfold callCb; split <;> rfl
    · exact h
  | reqError e =>
    show (if s.reqErrOn then _ else _ : ReqState).responded = true
    split
    · unfold cleanUp; rw [show ∀ t : ReqState, (callCb t _).responded = t.responded from ?_]
      · show (nullRequest _).responded = true
        rw [nullRequest_responded]; exact h
      · intro t; unfold callCb; split <;> rfl
    · exact h
  | abort =>
    show (cancel s).responded = true
    unfold cancel
    cases s.request with
    | none => exact h
    | some r => exact h

theorem foldl_responded_mono (s : ReqState) (evs : List Ev) (h : s.responded = true) :
    (evs.foldl step s).responded = true := by
  induction evs generalizing s with
  | nil => exact h
  | cons e t ih => exact ih (step s e) (step_responded_mono s e h)

theorem step_reqError_cbUsed (s : ReqState) (v : JsVal)
    (h2 : s.reqErrOn = false → s.cbUsed = true) :
    (step s (Ev.reqError v)).cbUsed = true := by
  show (if s.reqErrOn then _ else _ : ReqState).cbUsed = true
  split
  · exact cleanUp_cbUsed _ _ _
  · next hn => exact h2 (Bool.not_eq_true s.reqErrOn ▸ hn)

theorem step_streamEnd_cbUsed (s : ReqState) (hr : s.responded = true)
    (h3 : s.responded = true → s.incomingEndOn = false → s.cbUsed = true) :
    (step s Ev.streamEnd).cbUsed = true := by
  show (if s.incomingEndOn then _ else _ : ReqState).cbUsed = true
  split
  · exact cleanUp_cbUsed _ _ _
  · next hn => exact h3 hr (Bool.not_eq_true s.incomingEndOn ▸ hn)

theorem step_responseStart_responded (s : ReqState) (st : Nat)
    (hd : List (String × String)) :
    (step s (Ev.responseStart st hd)).responded = true := by
  show (if s.responded then _ else _ : ReqState).responded = true
  split
  · next h => exact h
  · rfl

theorem cbUsed_length_one (s : ReqState) (hInv : Inv s) (h : s.cbUsed = true) :
    s.cbCalls.length = 1 := by
  rw [hInv.1, if_pos h]

/-- C1: for every request issued through the executor, the completion
callback fires at most once on every event trace — in particular it
cannot fire twice when a socket-level error and a response-stream end
signal race — and it fires exactly once on every trace that contains a
socket-level error, as well as on every trace in which a response head
is followed, eventually, by a stream-end signal. -/
theorem c1_callback_exactly_once (p : Params) (evs evs1 evs2 : List Ev)
    (v : JsVal) (st : Nat) (hd : List (String × String)) :
    (runRequest p evs).cbCalls.length ≤ 1 ∧
    (Ev.reqError v ∈ evs → (runRequest p evs).cbCalls.length = 1) ∧
    (runRequest p (evs1 ++ Ev.responseStart st hd :: (evs2 ++ [Ev.streamEnd]))).cbCalls.length = 1 := by
  refine ⟨?_, ?_, ?_⟩
  · rw [(inv_run p evs).1]
    split
    · exact le_refl 1
    · exact Nat.zero_le 1
  · intro hm
    obtain ⟨l1, l2, hsplit⟩ := List.append_of_mem hm
    subst hsplit
    have hInvs1 : Inv (l1.foldl step (startState p)) := inv_foldl _ _ (inv_start p)
    have hstep : (step (l1.foldl step (startState p)) (Ev.reqError v)).cbUsed = true :=
      step_reqError_cbUsed _ _ hInvs1.2.1
    have hfin : (runRequest p (l1 ++ Ev.reqError v :: l2)).cbUsed = true := by
      unfold runRequest
      rw [List.foldl_append]
      show (l2.foldl step (step (l1.foldl step (startState p)) (Ev.reqError v))).cbUsed = true
      exact foldl_cbUsed_mono _ _ hstep
    exact cbUsed_length_one _ (inv_run p _) hfin
  · have hInvs1 : Inv (evs1.foldl step (startState p)) := inv_foldl _ _ (inv_start p)
    have hresp : (step (evs1.foldl step (startState p)) (Ev.responseStart st hd)).responded = true :=
      step_responseStart_responded _ _ _
    have hs2Inv : Inv (step (evs1.foldl step (startState p)) (Ev.responseStart st hd)) :=
      inv_step _ _ hInvs1
    have hs3Inv : Inv (evs2.foldl step (step (evs1.foldl step (startState p)) (Ev.responseStart st hd))) :=
      inv_foldl _ _ hs2Inv
    have hs3resp :
        (evs2.foldl step (step (evs1.foldl step (startState p)) (Ev.responseStart st hd))).responded = true :=
      foldl_responded_mono _ _ hresp
    have hfinal :
        (step (evs2.foldl step (step (evs1.foldl step (startState p)) (Ev.responseStart st hd))) Ev.streamEnd).cbUsed = true :=
      step_streamEnd_cbUsed _ hs3resp hs3Inv.2.2.1
    have hshape : runRequest p (evs1 ++ Ev.responseStart st hd :: (evs2 ++ [Ev.streamEnd])) =
        step (evs2.foldl step (step (evs1.foldl step (startState p)) (Ev.responseStart st hd))) Ev.streamEnd := by
      unfold runRequest
      rw [List.foldl_append]
      show (evs2 ++ [Ev.streamEnd]).foldl step _ = _
      rw [List.foldl_append]
      rfl
    rw [hshape]
    exact cbUsed_length_one _ (inv_step _ _ hs3Inv) hfinal

/-- Witness for C1 at a trace in which a socket error and a stream-end
signal both occur. -/
theorem c1_witness :
    Ev.reqError (JsVal.jsErr "boom") ∈ [Ev.reqError (JsVal.jsErr "boom"), Ev.streamEnd] ∧
    (runRequest pEx [Ev.reqError (JsVal.jsErr "boom"), Ev.streamEnd]).cbCalls.length = 1 :=
  ⟨by decide,
   (c1_callback_exactly_once pEx [Ev.reqError (JsVal.jsErr "boom"), Ev.streamEnd] [] []
      (JsVal.jsErr "boom") 0 []).2.1 (by decide)⟩

/-- C4 counterexample: on a socket-level error that arrives before any
response, the callback is invoked with the single argument `(error)`
(http.js line 157) — not with the four-argument shape
`(error, undefined, 0, empty-headers)` the claim states. -/
theorem c4_counterexample :
    (runRequest pEx [Ev.reqError (JsVal.jsErr "socket hang up")]).cbCalls =
      [[JsVal.jsErr "socket hang up"]] ∧
    (runRequest pEx [Ev.reqError (JsVal.jsErr "socket hang up")]).cbCalls ≠
      [[JsVal.jsErr "socket hang up", JsVal.undef, JsVal.num 0, JsVal.hdrs []]] := by
  constructor
  · rfl
  · decide

/-- C4 (amended): for every request that reaches the FAILED state, the
completion callback is invoked with the error as its only argument —
any delivered argument list that starts with an `Error` instance has no
further arguments, so the callee observes `undefined` (not `0` and not
an empty map) in the statusCode and headers positions. -/
theorem c4_failed_single_argument (p : Params) (evs : List Ev) (args : List JsVal)
    (e : JsVal) (rest : List JsVal) (hmem : args ∈ (runRequest p evs).cbCalls)
    (hcons : args = e :: rest) (he : e.isError = true) : rest = [] := by
  rcases (inv_run p evs).2.2.2.2 args hmem with ⟨e', _, heq⟩ | ⟨b, st, hd, heq⟩
  · rw [hcons] at heq
    exact (List.cons_eq_cons.mp heq).2
  · rw [hcons] at heq
    obtain ⟨h1, h2⟩ := List.cons_eq_cons.mp heq
    rw [h1] at he
    exact absurd he (by decide)

/-- Witness for C4's amended statement at a concrete failing trace. -/
theorem c4_witness : ([] : List JsVal) = [] :=
  c4_failed_single_argument pEx [Ev.reqError (JsVal.jsErr "boom")]
    [JsVal.jsErr "boom"] (JsVal.jsErr "boom") [] (by decide) rfl rfl

/-- C7: the cancellation function returned by `request` is idempotent —
invoking it twice yields the same state as invoking it once — and once
the request has reached a terminal state (the callback has fired, so
`cleanUp` nulled the `request` variable) invoking it is a no-op. -/
theorem c7_cancel_idempotent (s : ReqState) (p : Params) (evs : List Ev) :
    cancel (cancel s) = cancel s ∧
    ((runRequest p evs).cbUsed = true → cancel (runRequest p evs) = runRequest p evs) := by
  constructor
  · cases hreq : s.request with
    | none =>
      have h1 : cancel s = s := by unfold cancel; rw [hreq]
      rw [h1, h1]
    | some r =>
      cases r with
      | mk b =>
        have h1 : cancel s = { s with request := some { aborted := true } } := by
          unfold cancel; rw [hreq]
        rw [h1]
        unfold cancel
        rfl
  · intro hcb
    have h4 := (inv_run p evs).2.2.2.1 hcb
    unfold cancel
    rw [h4]

/-- Witness for C7 at a request that has reached a terminal state. -/
theorem c7_witness :
    (runRequest pEx [Ev.reqError (JsVal.jsErr "x")]).cbUsed = true ∧
    cancel (runRequest pEx [Ev.reqError (JsVal.jsErr "x")]) =
      runRequest pEx [Ev.reqError (JsVal.jsErr "x")] :=
  ⟨by decide,
   (c7_cancel_idempotent (startState pEx) pEx [Ev.reqError (JsVal.jsErr "x")]).2 (by decide)⟩

/-- C8: the code contradicts the claim — on a completed attempt the
logging sink receives `null` (the just-nulled `request` variable, passed
at http.js line 155 into `logRequest`'s `response` parameter) in the
rawResponse position, even though the callback delivers the accumulated
response body; the raw response is never logged. -/
theorem c8_log_rawResponse_null :
    (runRequest pLog [Ev.responseStart 200 [("content-type", "text/plain")],
        Ev.dataChunk "hello", Ev.streamEnd]).cbCalls =
      [[JsVal.undef, JsVal.str "hello", JsVal.num 200,
        JsVal.hdrs [("content-type", "text/plain")]]] ∧
    (runRequest pLog [Ev.responseStart 200 [("content-type", "text/plain")],
        Ev.dataChunk "hello", Ev.streamEnd]).logCalls.map LogCall.rawResponse =
      [JsVal.jsNull] := by
  constructor
  · rfl
  · rfl

/-- C9: whenever `cleanUp` runs with a first argument that is not an
`Error` instance and the callback has not yet fired, the callback is
invoked with the success shape
`(undefined, body-or-undefined, statusCode, headers)` — the non-Error
first argument is coerced to `undefined` — and an empty accumulated
body is delivered as `undefined` rather than as the empty string. -/
theorem c9_success_shape (s : ReqState) (err : JsVal) (resp : Option String)
    (he : err.isError = false) (hcb : s.cbUsed = false) :
    (cleanUp err resp s).cbCalls =
      s.cbCalls ++ [[JsVal.undef, bodyOrUndef resp, JsVal.num s.status, JsVal.hdrs s.headers]] ∧
    bodyOrUndef (some "") = JsVal.undef := by
  constructor
  · have hs : (logAfterNull (nullRequest s)).cbUsed = false := by
      show (nullRequest s).cbUsed = false
      rw [nullRequest_cbUsed]; exact hcb
    have hc : (logAfterNull (nullRequest s)).cbCalls = s.cbCalls := by
      show (nullRequest s).cbCalls = s.cbCalls
      exact nullRequest_cbCalls s
    have hst : (logAfterNull (nullRequest s)).status = s.status := by
      show (nullRequest s).status = s.status
      exact nullRequest_status s
    have hhd : (logAfterNull (nullRequest s)).headers = s.headers := by
      show (nullRequest s).headers = s.headers
      exact nullRequest_headers s
    unfold cleanUp
    rw [show errCoerce err = JsVal.undef from by simp [errCoerce, he]]
    rw [show cbArgsFor JsVal.undef resp (logAfterNull (nullRequest s)) =
        [JsVal.undef, bodyOrUndef resp, JsVal.num s.status, JsVal.hdrs s.headers] from by
      simp [cbArgsFor, JsVal.isError, hst, hhd]]
    unfold callCb
    rw [if_neg (by simp [hs])]
    show (logAfterNull (nullRequest s)).cbCalls ++ _ = _
    rw [hc]
  · rfl

/-- C3 counterexample: the protocol `constructor` is neither `http` nor
`https`, yet construction does not throw — `handles['constructor']` hits
the inherited `Object.prototype.constructor`, a truthy value, so the
`if (!this.hand)` guard at http.js line 34 does not fire. -/
theorem c3_counterexample :
    (("constructor" : String) ≠ "http" ∧ ("constructor" : String) ≠ "https") ∧
    connectorCtor "constructor" =
      Except.ok { hand := HandleKind.inherited "constructor", useSsl := false } :=
  ⟨by decide, rfl⟩

/-- C3 (amended): constructing the transport with a protocol that is
neither `http` nor `https` nor the name of an inherited
`Object.prototype` property fails synchronously with the
unsupported-protocol error (the `TypeError` thrown at http.js line 35,
which the specification names `UnsupportedProtocolError`); `http` and
`https` construct without throwing on account of the protocol, and so —
an inheritance quirk of the `handles` object literal — does every
protocol naming an `Object.prototype` property, such as `constructor`
or `toString`. -/
theorem c3_protocol_validation (p : String) :
    ((p ≠ "http" ∧ p ≠ "https" ∧ p ∉ objectPrototypeProps) →
      ∃ m, connectorCtor p = Except.error (ConstructError.invalidProtocol m)) ∧
    (p ∈ objectPrototypeProps → p ≠ "http" → p ≠ "https" →
      connectorCtor p = Except.ok { hand := HandleKind.inherited p, useSsl := false }) ∧
    connectorCtor "http" = Except.ok { hand := HandleKind.http, useSsl := false } ∧
    connectorCtor "https" = Except.ok { hand := HandleKind.https, useSsl := true } := by
  refine ⟨?_, ?_, rfl, rfl⟩
  · intro h
    refine ⟨"Invalid protocol \"" ++ p ++ "\", expected one of http, https", ?_⟩
    unfold connectorCtor handleFor
    rw [if_neg h.1, if_neg h.2.1, if_neg h.2.2]
  · intro hmem h1 h2
    unfold connectorCtor handleFor
    rw [if_neg h1, if_neg h2, if_pos hmem]
    have hssl : (p == "https") = false := by
      rw [beq_eq_false_iff_ne]
      exact h2
    rw [hssl]

/-- Witness for C3's amended statement at the specification's `ftp`
scenario and at the inherited-property quirk. -/
theorem c3_witness :
    ((("ftp" : String) ≠ "http" ∧ ("ftp" : String) ≠ "https" ∧
        ("ftp" : String) ∉ objectPrototypeProps) ∧
      ∃ m, connectorCtor "ftp" = Except.error (ConstructError.invalidProtocol m)) ∧
    connectorCtor "toString" =
      Except.ok { hand := HandleKind.inherited "toString", useSsl := false } :=
  ⟨⟨by decide, (c3_protocol_validation "ftp").1 (by decide)⟩,
   (c3_protocol_validation "toString").2.1 (by decide) (by decide) (by decide)⟩

/-- C5: when the content-encoding response header equals `gzip` or
`deflate` compared case-insensitively, the delivered body is the UTF-8
decoding of the decompressed raw bytes; when the header is absent or
holds an unrecognized value, the delivered body is the UTF-8 decoding of
the raw bytes with no transformation. -/
theorem c5_content_encoding (unzip : List Nat → List Nat) (utf8 : List Nat → String)
    (headers : List (String × String)) (raw : List Nat) (v : String) :
    (List.lookup "content-encoding" headers = some v →
      (jsLower v = "gzip" ∨ jsLower v = "deflate") →
      deliveredBody unzip utf8 headers raw = utf8 (unzip raw)) ∧
    (contentEncodingOf headers ≠ "gzip" → contentEncodingOf headers ≠ "deflate" →
      deliveredBody unzip utf8 headers raw = utf8 raw) ∧
    (List.lookup "content-encoding" headers = none →
      deliveredBody unzip utf8 headers raw = utf8 raw) := by
  refine ⟨?_, ?_, ?_⟩
  · intro hl he
    unfold deliveredBody
    rw [if_pos]
    unfold contentEncodingOf
    rw [hl]
    exact he
  · intro h1 h2
    unfold deliveredBody
    rw [if_neg (not_or.mpr ⟨h1, h2⟩)]
  · intro hl
    have hce : contentEncodingOf headers = "" := by
      unfold contentEncodingOf
      rw [hl]
      decide
    unfold deliveredBody
    exact if_neg (by rw [hce]; decide)

/-- Witness for C5 with a mixed-case gzip header, an abstract
decompressor, and an abstract UTF-8 decoder. -/
theorem c5_witness :
    (List.lookup "content-encoding" [("content-encoding", "GZip")] = some "GZip" →
      (jsLower "GZip" = "gzip" ∨ jsLower "GZip" = "deflate") →
      deliveredBody (fun l => l ++ l) (fun l => String.mk (l.map Char.ofNat))
        [("content-encoding", "GZip")] [104, 105] =
        (fun l : List Nat => String.mk (l.map Char.ofNat)) ((fun l : List Nat => l ++ l) [104, 105])) ∧
    deliveredBody (fun l => l ++ l) (fun l => String.mk (l.map Char.ofNat))
      [("content-encoding", "GZip")] [104, 105] = String.mk ([104, 105, 104, 105].map Char.ofNat) :=
  ⟨fun hl he => (c5_content_encoding (fun l => l ++ l) (fun l => String.mk (l.map Char.ofNat))
      [("content-encoding", "GZip")] [104, 105] "GZip").1 hl he,
   (c5_content_encoding (fun l => l ++ l) (fun l => String.mk (l.map Char.ofNat))
      [("content-encoding", "GZip")] [104, 105] "GZip").1 (by decide) (by decide)⟩

/-- C6: the Content-Length header is set explicitly — for every present
body it equals that body's UTF-8 byte length (the empty string's byte
length being 0), and for an absent or empty body it is 0. -/
theorem c6_content_length (b : String) :
    contentLengthValue (some b) = b.utf8ByteSize ∧
    contentLengthValue none = 0 ∧
    contentLengthValue (some "") = 0 := by
  refine ⟨?_, rfl, rfl⟩
  by_cases hb : b = ""
  · subst hb
    rfl
  · unfold contentLengthValue
    rw [if_pos]
    · rfl
    · show bodyTruthy (some b) = true
      unfold bodyTruthy
      simp [hb]

/-- C10: without a createNodeAgent override, a truthy `forever` forces
keep-alive on — the agentkeepalive pooling class is instantiated and the
closed-status drain listener is registered, whatever the `keepAlive`
option holds — and with `keepAlive` false and `forever` falsy the drain
listener is never registered. -/
theorem c10_forever_forces_keepalive (useSsl keepAlive forever : Bool) :
    (forever = true →
      ((connectorAgentSetup false useSsl keepAlive forever).cls = AgentClass.keepAliveAgent ∨
       (connectorAgentSetup false useSsl keepAlive forever).cls = AgentClass.keepAliveHttpsAgent) ∧
      (connectorAgentSetup false useSsl keepAlive forever).drainListener = true) ∧
    (keepAlive = false → forever = false →
      (connectorAgentSetup false useSsl keepAlive forever).drainListener = false) := by
  cases useSsl <;> cases keepAlive <;> cases forever <;> decide

/-- Witness for C10: `forever` true with `keepAlive` false still selects
the pooling agent and registers the listener; both false registers
nothing. -/
theorem c10_witness :
    (((connectorAgentSetup false false false true).cls = AgentClass.keepAliveAgent ∨
      (connectorAgentSetup false false false true).cls = AgentClass.keepAliveHttpsAgent) ∧
     (connectorAgentSetup false false false true).drainListener = true) ∧
    (connectorAgentSetup false true false false).drainListener = false :=
  ⟨(c10_forever_forces_keepalive false false true).1 rfl,
   (c10_forever_forces_keepalive true false false).2 rfl rfl⟩

/-- Witness for C9 with a non-Error first argument and an empty
accumulated body. -/
theorem c9_witness :
    (cleanUp (JsVal.str "not an error") (some "") (startState pEx)).cbCalls =
      (startState pEx).cbCalls ++
        [[JsVal.undef, bodyOrUndef (some ""), JsVal.num (startState pEx).status,
          JsVal.hdrs (startState pEx).headers]] ∧
    bodyOrUndef (some "") = JsVal.undef :=
  c9_success_shape (startState pEx) (JsVal.str "not an error") (some "") (by decide) (by decide)

theorem occ_append (q : String × Nat) (l1 l2 : List (String × Nat)) :
    occ q (l1 ++ l2) = occ q l1 + occ q l2 := by
  induction l1 with
  | nil => simp [occ]
  | cons x t ih =>
    show (if x = q then 1 else 0) + occ q (t ++ l2) = ((if x = q then 1 else 0) + occ q t) + occ q l2
    rw [ih, Nat.add_assoc]

theorem occ_eq_zero_of_not_mem (q : String × Nat) (l : List (String × Nat))
    (h : q ∉ l) : occ q l = 0 := by
  induction l with
  | nil => rfl
  | cons x t ih =>
    show (if x = q then 1 else 0) + occ q t = 0
    rw [if_neg (fun hx : x = q => h (List.mem_cons.mpr (Or.inl hx.symm))),
        ih (fun ht => h (List.mem_cons_of_mem x ht))]

theorem not_mem_of_occ_eq_zero (q : String × Nat) (l : List (String × Nat))
    (h : occ q l = 0) : q ∉ l := by
  induction l with
  | nil => exact List.not_mem_nil q
  | cons x t ih =>
    intro hmem
    have hx : (if x = q then 1 else 0) + occ q t = 0 := h
    rcases List.mem_cons.mp hmem with rfl | hmt
    · rw [if_pos rfl] at hx
      omega
    · exact ih (by omega) hmt

theorem nodup_occ_le_one (l : List (String × Nat)) (h : l.Nodup) (q : String × Nat) :
    occ q l ≤ 1 := by
  induction l with
  | nil => exact Nat.zero_le 1
  | cons x t ih =>
    obtain ⟨hx, ht⟩ := List.nodup_cons.mp h
    show (if x = q then 1 else 0) + occ q t ≤ 1
    by_cases hxq : x = q
    · rw [if_pos hxq, occ_eq_zero_of_not_mem q t (hxq ▸ hx)]
    · rw [if_neg hxq]
      simpa using ih ht

theorem occ_entryPairs (k : String) (l : List (Option Nat)) (q1 : String) (q2 : Nat) :
    occ (q1, q2) (entryPairs k l) = if q1 = k then occSome q2 l else 0 := by
  induction l with
  | nil =>
    show (0 : Nat) = if q1 = k then 0 else 0
    split <;> rfl
  | cons x t ih =>
    cases x with
    | none =>
      show occ (q1, q2) (entryPairs k t) =
        if q1 = k then (if (none : Option Nat) = some q2 then 1 else 0) + occSome q2 t else 0
      rw [ih]
      by_cases hk : q1 = k
      · simp [hk]
      · simp [hk]
    | some v =>
      show (if (k, v) = (q1, q2) then 1 else 0) + occ (q1, q2) (entryPairs k t) =
        if q1 = k then (if some v = some q2 then 1 else 0) + occSome q2 t else 0
      rw [ih]
      by_cases hk : q1 = k
      · subst hk
        by_cases hv : v = q2
        · subst hv; simp
        · simp [hv]
      · have hk' : ¬(k = q1) := fun hkk => hk hkk.symm
        simp [hk, hk']

theorem occSome_removeFirst_le (n m : Nat) (l : List (Option Nat)) :
    occSome m (removeFirst l n) ≤ occSome m l := by
  induction l with
  | nil => exact Nat.le_refl 0
  | cons x t ih =>
    show occSome m (if x = some n then t else x :: removeFirst t n) ≤
      (if x = some m then 1 else 0) + occSome m t
    split
    · exact Nat.le_add_left _ _
    · show (if x = some m then 1 else 0) + occSome m (removeFirst t n) ≤ _
      exact Nat.add_le_add_left ih _

theorem occSome_removeFirst_self (n : Nat) (l : List (Option Nat))
    (h : occSome n l ≤ 1) : occSome n (removeFirst l n) = 0 := by
  induction l with
  | nil => rfl
  | cons x t ih =>
    have hx : (if x = some n then 1 else 0) + occSome n t = occSome n (x :: t) := rfl
    show occSome n (if x = some n then t else x :: removeFirst t n) = 0
    split
    · next hxn =>
      rw [← hx, if_pos hxn] at h
      omega
    · next hxn =>
      rw [← hx, if_neg hxn] at h
      show (if x = some n then 1 else 0) + occSome n (removeFirst t n) = 0
      rw [if_neg hxn, ih (by omega)]

theorem occ_collect_removeFromTable_le (tbl : List (String × List (Option Nat)))
    (k : String) (n : Nat) (q1 : String) (q2 : Nat) :
    occ (q1, q2) (collectSockets (removeFromTable tbl k n)) ≤
      occ (q1, q2) (collectSockets tbl) := by
  induction tbl with
  | nil => exact Nat.le_refl 0
  | cons kv t ih =>
    show occ (q1, q2) (entryPairs (if kv.1 = k then (kv.1, removeFirst kv.2 n) else kv).1
        (if kv.1 = k then (kv.1, removeFirst kv.2 n) else kv).2 ++
        collectSockets (removeFromTable t k n)) ≤
      occ (q1, q2) (entryPairs kv.1 kv.2 ++ collectSockets t)
    rw [occ_append, occ_append]
    refine Nat.add_le_add ?_ ih
    by_cases hk : kv.1 = k
    · rw [if_pos hk]
      show occ (q1, q2) (entryPairs kv.1 (removeFirst kv.2 n)) ≤ _
      rw [occ_entryPairs, occ_entryPairs]
      split
      · exact occSome_removeFirst_le n q2 kv.2
      · exact Nat.le_refl 0
    · rw [if_neg hk]

theorem occ_collect_removeFromTable_self (tbl : List (String × List (Option Nat)))
    (k : String) (n : Nat)
    (h : occ (k, n) (collectSockets tbl) ≤ 1) :
    occ (k, n) (collectSockets (removeFromTable tbl k n)) = 0 := by
  induction tbl with
  | nil => rfl
  | cons kv t ih =>
    have hsplit : occ (k, n) (entryPairs kv.1 kv.2) + occ (k, n) (collectSockets t) ≤ 1 := by
      rw [← occ_append]
      exact h
    show occ (k, n) (entryPairs (if kv.1 = k then (kv.1, removeFirst kv.2 n) else kv).1
        (if kv.1 = k then (kv.1, removeFirst kv.2 n) else kv).2 ++
        collectSockets (removeFromTable t k n)) = 0
    rw [occ_append]
    have htail : occ (k, n) (collectSockets (removeFromTable t k n)) = 0 :=
      ih (by omega)
    have hhead : occ (k, n) (entryPairs (if kv.1 = k then (kv.1, removeFirst kv.2 n) else kv).1
        (if kv.1 = k then (kv.1, removeFirst kv.2 n) else kv).2) = 0 := by
      by_cases hk : kv.1 = k
      · rw [if_pos hk]
        show occ (k, n) (entryPairs kv.1 (removeFirst kv.2 n)) = 0
        rw [occ_entryPairs, if_pos hk.symm]
        refine occSome_removeFirst_self n kv.2 ?_
        have := occ_entryPairs kv.1 kv.2 k n
        rw [if_pos hk.symm] at this
        omega
      · rw [if_neg hk, occ_entryPairs, if_neg (fun hkk => hk hkk.symm)]
    rw [hhead, htail]

theorem foldl_removeSocket_min (L : List (String × Nat)) (a : Agent) :
    ((L.foldl (fun ag hs => removeSocket ag hs.1 hs.2) a).minSockets = a.minSockets ∧
     (L.foldl (fun ag hs => removeSocket ag hs.1 hs.2) a).maxSockets = a.maxSockets ∧
     (L.foldl (fun ag hs => removeSocket ag hs.1 hs.2) a).requests = a.requests) := by
  induction L generalizing a with
  | nil => exact ⟨rfl, rfl, rfl⟩
  | cons p t ih => exact ih (removeSocket a p.1 p.2)

theorem foldl_remove_occ_le (L : List (String × Nat)) (a : Agent) (q1 : String) (q2 : Nat) :
    occ (q1, q2) (collectSockets (L.foldl (fun ag hs => removeSocket ag hs.1 hs.2) a).sockets) ≤
      occ (q1, q2) (collectSockets a.sockets) ∧
    occ (q1, q2) (collectSockets (L.foldl (fun ag hs => removeSocket ag hs.1 hs.2) a).freeSockets) ≤
      occ (q1, q2) (collectSockets a.freeSockets) := by
  induction L generalizing a with
  | nil => exact ⟨Nat.le_refl _, Nat.le_refl _⟩
  | cons p t ih =>
    refine ⟨Nat.le_trans (ih (removeSocket a p.1 p.2)).1 ?_,
            Nat.le_trans (ih (removeSocket a p.1 p.2)).2 ?_⟩
    · exact occ_collect_removeFromTable_le a.sockets p.1 p.2 q1 q2
    · exact occ_collect_removeFromTable_le a.freeSockets p.1 p.2 q1 q2

theorem foldl_remove_kills (L : List (String × Nat)) (a : Agent)
    (h : ∀ q ∈ L, occ q (collectSockets a.sockets) ≤ 1 ∧
                  occ q (collectSockets a.freeSockets) ≤ 1) :
    ∀ q ∈ L, occ q (collectSockets (L.foldl (fun ag hs => removeSocket ag hs.1 hs.2) a).sockets) = 0 ∧
             occ q (collectSockets (L.foldl (fun ag hs => removeSocket ag hs.1 hs.2) a).freeSockets) = 0 := by
  induction L generalizing a with
  | nil => intro q hq; cases hq
  | cons p t ih =>
    intro q hq
    rcases List.mem_cons.mp hq with rfl | hqt
    · have h0s : occ (q.1, q.2) (collectSockets (removeSocket a q.1 q.2).sockets) = 0 :=
        occ_collect_removeFromTable_self a.sockets q.1 q.2 (h q (List.mem_cons_self q t)).1
      have h0f : occ (q.1, q.2) (collectSockets (removeSocket a q.1 q.2).freeSockets) = 0 :=
        occ_collect_removeFromTable_self a.freeSockets q.1 q.2 (h q (List.mem_cons_self q t)).2
      constructor
      · exact Nat.le_zero.mp
          (Nat.le_trans (foldl_remove_occ_le t (removeSocket a q.1 q.2) q.1 q.2).1
            (Nat.le_of_eq h0s))
      · exact Nat.le_zero.mp
          (Nat.le_trans (foldl_remove_occ_le t (removeSocket a q.1 q.2) q.1 q.2).2
            (Nat.le_of_eq h0f))
    · refine ih (removeSocket a p.1 p.2) ?_ q hqt
      intro q' hq'
      exact ⟨Nat.le_trans (occ_collect_removeFromTable_le a.sockets p.1 p.2 q'.1 q'.2)
               (h q' (List.mem_cons_of_mem p hq')).1,
             Nat.le_trans (occ_collect_removeFromTable_le a.freeSockets p.1 p.2 q'.1 q'.2)
               (h q' (List.mem_cons_of_mem p hq')).2⟩

/-- C2 counterexample: with the configuration `keepAlive: false`,
`forever: false` and no `createNodeAgent` override, the drain listener is
never registered (http.js lines 83-86), so delivering the closed-status
notification leaves a pool holding five tracked sockets fully intact —
its concurrency limit stays 5 and nothing is destroyed — contradicting
"this holds regardless of the configuration". -/
theorem c2_counterexample :
    deliverStatusSet (connectorAgentSetup false false false false) "closed" agentEx =
      (agentEx, []) ∧
    agentEx.maxSockets ≠ some 0 ∧
    (collectSockets agentEx.sockets ++ collectSockets agentEx.freeSockets).length = 5 := by
  refine ⟨rfl, by decide, rfl⟩

/-- C2 (amended): when the transport was constructed without a
`createNodeAgent` override and with `keepAlive` or `forever` truthy (so
the drain listener is registered), delivering the closed-status
notification sets both concurrency limits of the pool to zero, clears
the queued-request bookkeeping, enumerates every socket the pool tracks
— in-use and idle — exactly once each (the destruction list is exactly
the concatenation of the non-null entries of `sockets` and
`freeSockets`), and detaches every enumerated socket from the pool's
bookkeeping for its host key while destroying it; socket objects are
pairwise distinct in the runtime, which the model states as the
`Nodup` hypothesis. -/
theorem c2_drain_on_closed (a : Agent) (useSsl keepAlive forever : Bool)
    (hka : keepAlive = true ∨ forever = true)
    (hnd : (collectSockets a.sockets ++ collectSockets a.freeSockets).Nodup) :
    (deliverStatusSet (connectorAgentSetup false useSsl keepAlive forever) "closed" a).1.minSockets = some 0 ∧
    (deliverStatusSet (connectorAgentSetup false useSsl keepAlive forever) "closed" a).1.maxSockets = some 0 ∧
    (deliverStatusSet (connectorAgentSetup false useSsl keepAlive forever) "closed" a).1.requests = [] ∧
    (deliverStatusSet (connectorAgentSetup false useSsl keepAlive forever) "closed" a).2 =
      collectSockets a.sockets ++ collectSockets a.freeSockets ∧
    (∀ q ∈ (deliverStatusSet (connectorAgentSetup false useSsl keepAlive forever) "closed" a).2,
      q ∉ collectSockets (deliverStatusSet (connectorAgentSetup false useSsl keepAlive forever) "closed" a).1.sockets ∧
      q ∉ collectSockets (deliverStatusSet (connectorAgentSetup false useSsl keepAlive forever) "closed" a).1.freeSockets) := by
  have hlisten : (connectorAgentSetup false useSsl keepAlive forever).drainListener = true := by
    unfold connectorAgentSetup createAgent
    rcases hka with h | h
    · subst h; cases forever <;> simp
    · subst h; simp
  have hres : deliverStatusSet (connectorAgentSetup false useSsl keepAlive forever) "closed" a =
      ((collectSockets a.sockets ++ collectSockets a.freeSockets).foldl
          (fun ag hs => removeSocket ag hs.1 hs.2)
          { a with minSockets := some 0, maxSockets := some 0, requests := [] },
       collectSockets a.sockets ++ collectSockets a.freeSockets) := by
    unfold deliverStatusSet
    rw [hlisten, if_pos rfl]
    unfold onStatusSet
    rw [if_pos rfl]
  rw [hres]
  have hocc : ∀ q ∈ collectSockets a.sockets ++ collectSockets a.freeSockets,
      occ q (collectSockets a.sockets) ≤ 1 ∧ occ q (collectSockets a.freeSockets) ≤ 1 := by
    intro q _
    have hboth := nodup_occ_le_one _ hnd q
    rw [occ_append] at hboth
    omega
  refine ⟨(foldl_removeSocket_min _ _).1, (foldl_removeSocket_min _ _).2.1,
          (foldl_removeSocket_min _ _).2.2, rfl, ?_⟩
  intro q hq
  have hkill := foldl_remove_kills (collectSockets a.sockets ++ collectSockets a.freeSockets)
    { a with minSockets := some 0, maxSockets := some 0, requests := [] }
    (by intro q' hq'; exact hocc q' hq') q hq
  exact ⟨not_mem_of_occ_eq_zero _ _ hkill.1, not_mem_of_occ_eq_zero _ _ hkill.2⟩

/-- Witness for C2's amended statement at the specification's scenario:
a pool with 2 in-use and 3 idle sockets, `keepAlive` left at its truthy
default. -/
theorem c2_drain_witness :
    ((true = true ∨ false = true) ∧
      (collectSockets agentEx.sockets ++ collectSockets agentEx.freeSockets).Nodup) ∧
    ((deliverStatusSet (connectorAgentSetup false false true false) "closed" agentEx).1.minSockets = some 0 ∧
     (deliverStatusSet (connectorAgentSetup false false true false) "closed" agentEx).1.maxSockets = some 0 ∧
     (deliverStatusSet (connectorAgentSetup false false true false) "closed" agentEx).1.requests = [] ∧
     (deliverStatusSet (connectorAgentSetup false false true false) "closed" agentEx).2 =
       collectSockets agentEx.sockets ++ collectSockets agentEx.freeSockets ∧
     (∀ q ∈ (deliverStatusSet (connectorAgentSetup false false true false) "closed" agentEx).2,
       q ∉ collectSockets (deliverStatusSet (connectorAgentSetup false false true false) "closed" agentEx).1.sockets ∧
       q ∉ collectSockets (deliverStatusSet (connectorAgentSetup false false true false) "closed" agentEx).1.freeSockets)) :=
  ⟨⟨Or.inl rfl, by decide⟩,
   c2_drain_on_closed agentEx false true false (Or.inl rfl) (by decide)⟩

end HttpConnector
